import Mathlib

/-!
Verification of the wispr-local dictation core

Shallow embedding of the dictation pipeline of `src-tauri/src`:
the sample buffer (`audio/buffer.rs`), the audio capture and resampler
(`audio/capture.rs`), the filler-word sanitizer and the session controller
flows (`lib.rs`), and the AI formatter (`formatting.rs`).

Rust strings are modelled as lists of Unicode scalar values (`RStr`),
with explicit UTF-8 byte lengths so that the byte-index arithmetic of
`remove_fillers` (Rust `str::find` / slicing) is captured faithfully,
including the panics that out-of-range or non-boundary byte indices
raise: fallible string operations return `Option`, `none` meaning panic.
-/

/-- A Rust `String`, as its sequence of Unicode scalar values. -/
abbrev RStr := List Char

/-- Shorthand to build an `RStr` from a Lean string literal. -/
def rs (s : String) : RStr := s.data

/-- Number of bytes of the UTF-8 encoding of a scalar value. -/
def charUtf8Len (c : Char) : Nat :=
  if c.toNat < 0x80 then 1
  else if c.toNat < 0x800 then 2
  else if c.toNat < 0x10000 then 3
  else 4

/-- Rust `str::len`: the length in bytes of the UTF-8 encoding. -/
def utf8Len (s : RStr) : Nat := (s.map charUtf8Len).sum

/-- Unicode `White_Space` test, as used by Rust `char::is_whitespace`
(and hence `str::split_whitespace` and `str::trim`). -/
def rustIsWs (c : Char) : Bool :=
  let n := c.toNat
  (0x09 ≤ n && n ≤ 0x0D) || n = 0x20 || n = 0x85 || n = 0xA0 ||
  n = 0x1680 || (0x2000 ≤ n && n ≤ 0x200A) || n = 0x2028 || n = 0x2029 ||
  n = 0x202F || n = 0x205F || n = 0x3000

/-- One step of Rust `str::to_lowercase`, per scalar value.  The table
covers the scripts occurring in this development: ASCII, the Cyrillic
range used by the Russian filler dictionary, and dotted capital I
(U+0130), whose lowercase form is *two* scalars — the case in which
lowercasing changes UTF-8 byte length.  Rust's `to_lowercase` agrees
with this map on every string formed from these characters; on
characters outside the table the map is the identity. -/
def charLower (c : Char) : List Char :=
  let n := c.toNat
  if 0x41 ≤ n ∧ n ≤ 0x5A then [Char.ofNat (n + 0x20)]        -- A–Z
  else if 0x410 ≤ n ∧ n ≤ 0x42F then [Char.ofNat (n + 0x20)] -- А–Я
  else if n = 0x401 then [Char.ofNat 0x451]                   -- Ё → ё
  else if n = 0x130 then [Char.ofNat 0x69, Char.ofNat 0x307]  -- İ → i ̇
  else [c]

/-- Rust `str::to_lowercase`. -/
def toLowerStr (s : RStr) : RStr := s.flatMap charLower

/-- Rust byte slicing `&s[n..]`.  `none` when `n` is not a character
boundary or exceeds the byte length (Rust panics there). -/
def byteDrop : RStr → Nat → Option RStr
  | s, 0 => some s
  | [], _ + 1 => none
  | c :: rest, n + 1 =>
    if charUtf8Len c ≤ n + 1 then byteDrop rest (n + 1 - charUtf8Len c)
    else none

/-- Rust byte slicing `&s[..n]`.  `none` when `n` is not a character
boundary or exceeds the byte length (Rust panics there). -/
def byteTake : RStr → Nat → Option RStr
  | _, 0 => some []
  | [], _ + 1 => none
  | c :: rest, n + 1 =>
    if charUtf8Len c ≤ n + 1 then
      (byteTake rest (n + 1 - charUtf8Len c)).map (c :: ·)
    else none

/-- Rust `str::find` for a substring pattern: byte offset of the first
occurrence.  Because UTF-8 is self-synchronizing, a byte-level substring
match of one valid string inside another always starts and ends on
character boundaries, so the byte-level search of the source coincides
with this character-aligned search. -/
def byteFind : RStr → RStr → Option Nat
  | hay, needle =>
    if needle.isPrefixOf hay then some 0
    else match hay with
      | [] => none
      | c :: rest => (byteFind rest needle).map (· + charUtf8Len c)

/-- Rust `str::trim_matches` with a predicate: strip matching characters
from both ends. -/
def trimMatches (p : Char → Bool) (s : RStr) : RStr :=
  ((s.dropWhile p).reverse.dropWhile p).reverse

/-- Rust `str::trim`: strip Unicode whitespace from both ends. -/
def rustTrim (s : RStr) : RStr := trimMatches rustIsWs s

/-- Rust `str::split_whitespace`, via an accumulator of the current
(reversed) token. -/
def splitWsAux : RStr → RStr → List RStr
  | [], acc => if acc = [] then [] else [acc.reverse]
  | c :: rest, acc =>
    if rustIsWs c then
      if acc = [] then splitWsAux rest []
      else acc.reverse :: splitWsAux rest []
    else splitWsAux rest (c :: acc)

/-- Rust `str::split_whitespace` (collected to a vector). -/
def splitWhitespace (s : RStr) : List RStr := splitWsAux s []

/-- Rust `Vec::join(" ")` of string tokens. -/
def joinSpace (ws : List RStr) : RStr := (ws.intersperse [' ']).flatten

/-- The Russian filler dictionary of `remove_fillers` (`lib.rs`). -/
def fillers_ru : List RStr :=
  [rs "ну", rs "эм", rs "э", rs "ээ", rs "эээ", rs "ам", rs "хм",
   rs "ммм", rs "мм", rs "типа", rs "короче", rs "как бы",
   rs "это самое", rs "в общем", rs "так сказать", rs "слушай",
   rs "значит", rs "ну вот"]

/-- The English filler dictionary of `remove_fillers` (`lib.rs`). -/
def fillers_en : List RStr :=
  [rs "um", rs "uh", rs "uh", rs "uhh", rs "umm", rs "hmm", rs "er",
   rs "ah", rs "like", rs "you know", rs "i mean", rs "so", rs "well",
   rs "basically"]

/-- One iteration of the multi-word loop body of `remove_fillers`: look
for `filler` (lowercased) in the lowercase view of `result`, and if
found splice it out of `result` at the *byte* positions found in the
lowercase view, also removing a following `", "` or `" "`.  `none`
models the panic of the byte slicing. -/
def removeMultiFiller (result filler : RStr) : Option RStr :=
  let lower := toLowerStr result
  let fillerLower := toLowerStr filler
  match byteFind lower fillerLower with
  | none => some result
  | some pos =>
    let stop := pos + utf8Len filler
    match byteDrop result stop with
    | none => none
    | some tail =>
      let stop2 :=
        if (rs ", ").isPrefixOf tail then stop + 2
        else if (rs " ").isPrefixOf tail then stop + 1
        else stop
      match byteTake result pos, byteDrop result stop2 with
      | some pre, some post => some (pre ++ post)
      | _, _ => none

/-- The first pass of `remove_fillers`: iterate over the filler list,
applying one multi-word removal per filler that contains a space. -/
def multiPass : List RStr → RStr → Option RStr
  | [], r => some r
  | f :: fs, r =>
    if f.contains ' ' then
      match removeMultiFiller r f with
      | none => none
      | some r2 => multiPass fs r2
    else multiPass fs r

/-- The punctuation predicate of the second pass of `remove_fillers`:
`c == ',' || c == '.' || c == '!' || c == '?'`. -/
def isPunctChar (c : Char) : Bool :=
  c = ',' || c = '.' || c = '!' || c = '?'

/-- The keep-test of the second pass of `remove_fillers`: lowercase the
token, strip `,` `.` `!` `?` from both ends (`trim_matches`), and keep
the token iff the result is in neither dictionary. -/
def keepWord (w : RStr) : Bool :=
  let lower := toLowerStr w
  let stripped := trimMatches isPunctChar lower
  !(fillers_ru.contains stripped) && !(fillers_en.contains stripped)

/-- Model of `remove_fillers` (`lib.rs` 278–329): remove multi-word fillers by
byte splicing, then filter single-word fillers token-wise, rejoin with
single spaces and trim.  `none` models a panic. -/
def remove_fillers (text : RStr) : Option RStr :=
  match multiPass (fillers_ru ++ fillers_en) text with
  | none => none
  | some r =>
    let cleaned := (splitWhitespace r).filter keepWord
    some (rustTrim (joinSpace cleaned))

/-- No multi-word filler occurs (as a substring of the lowercase view)
in `s`: the first pass of `remove_fillers` leaves such a string
untouched. -/
def noMultiFillerIn (s : RStr) : Prop :=
  ∀ f ∈ fillers_ru ++ fillers_en, f.contains ' ' = true →
    byteFind (toLowerStr s) (toLowerStr f) = none

instance (s : RStr) : Decidable (noMultiFillerIn s) :=
  inferInstanceAs (Decidable (∀ f ∈ fillers_ru ++ fillers_en,
    f.contains ' ' = true → byteFind (toLowerStr s) (toLowerStr f) = none))

/-- Modelled from the spec's words for claim C3 only: strip *only the
trailing* `,` `.` `!` `?` characters of a token (the source's
`trim_matches` strips both ends — see the counterexample). -/
def stripTrailingPunct (w : RStr) : RStr :=
  (w.reverse.dropWhile isPunctChar).reverse

/-!
Sample buffer (`audio/buffer.rs`)

The buffer holds 32-bit float samples; the claims about it are
independent of the element values, so the model is polymorphic in the
sample type.  The `Arc<Mutex<…>>` is elided: the embedding is the
sequential semantics of each operation (the lock-poisoned fallbacks of
the source never trigger in a sequential execution).
-/

/-- Model of `AudioBuffer` (`audio/buffer.rs`): the protected sample vector. -/
structure AudioBuffer (α : Type) where
  samples : List α
deriving DecidableEq, Repr

/-- Model of `AudioBuffer::new`. -/
def AudioBuffer.new (α : Type) : AudioBuffer α := ⟨[]⟩

/-- Model of `AudioBuffer::push_samples`: extend the vector with the slice. -/
def AudioBuffer.push_samples (b : AudioBuffer α) (data : List α) :
    AudioBuffer α := ⟨b.samples ++ data⟩

/-- Model of `AudioBuffer::take_samples`: `mem::take` — return the contents and
leave the buffer empty. -/
def AudioBuffer.take_samples (b : AudioBuffer α) :
    List α × AudioBuffer α := (b.samples, ⟨[]⟩)

/-- Model of `AudioBuffer::clear`. -/
def AudioBuffer.clear (_ : AudioBuffer α) : AudioBuffer α := ⟨[]⟩

/-- Model of `AudioBuffer::len`. -/
def AudioBuffer.len (b : AudioBuffer α) : Nat := b.samples.length

/-- Model of `AudioBuffer::snapshot`: a copy without clearing. -/
def AudioBuffer.snapshot (b : AudioBuffer α) : List α := b.samples

/-!
Audio capture (`audio/capture.rs`)

`AudioCapture::start` interrogates the host for a default input device
and its configuration, builds and plays a stream, and stores the
handle.  The host/device world is an explicit environment record; the
stream handle is modelled by the boolean `stream` (`is_some` of the
source's `Option<SendStream>`).
-/

/-- Model of `cpal::SampleFormat`, restricted to what `start` distinguishes. -/
inductive SampleFormat
  | F32
  | I16
  | Other (name : String)
deriving DecidableEq, Repr

/-- The default input configuration reported by the device. -/
structure DeviceConfig where
  sampleRate : Nat
  channels : Nat
  format : SampleFormat
deriving DecidableEq, Repr

/-- The audio-host environment consumed by one call of
`AudioCapture::start`: presence of a default device, the result of
`default_input_config`, and the results of building and playing the
stream. -/
structure CaptureEnv where
  defaultDevice : Bool
  defaultConfig : Except String DeviceConfig
  buildStream : Except String Unit
  playStream : Except String Unit

/-- Model of the `AudioCapture` state: the stream handle (`stream.is_some()`) and
the cached device sample rate. -/
structure AudioCapture where
  stream : Bool
  deviceSampleRate : Nat
deriving DecidableEq, Repr

/-- Model of `AudioCapture::new` (the buffer reference is elided). -/
def AudioCapture.new : AudioCapture := ⟨false, 48000⟩

/-- Model of `AudioCapture::start` (`audio/capture.rs` 32–87).  Note that the
source never consults `self.stream`: the running state plays no part in
the outcome, and on success the new handle overwrites any old one.
`self.device_sample_rate` is updated as soon as a configuration is
obtained, before the format check. -/
def AudioCapture.start (c : AudioCapture) (env : CaptureEnv) :
    AudioCapture × Except String Nat :=
  if !env.defaultDevice then (c, .error "No input device found")
  else match env.defaultConfig with
    | .error e => (c, .error ("Failed to get default input config: " ++ e))
    | .ok cfg =>
      let c := { c with deviceSampleRate := cfg.sampleRate }
      match cfg.format with
      | .F32 =>
        match env.buildStream with
        | .error e => (c, .error ("Failed to build f32 input stream: " ++ e))
        | .ok _ =>
          match env.playStream with
          | .error e => (c, .error ("Failed to start stream: " ++ e))
          | .ok _ => ({ c with stream := true }, .ok cfg.sampleRate)
      | .I16 =>
        match env.buildStream with
        | .error e => (c, .error ("Failed to build i16 input stream: " ++ e))
        | .ok _ =>
          match env.playStream with
          | .error e => (c, .error ("Failed to start stream: " ++ e))
          | .ok _ => ({ c with stream := true }, .ok cfg.sampleRate)
      | .Other name =>
        (c, .error ("Unsupported sample format: " ++ name))

/-- Model of `AudioCapture::stop`: drop the stream handle. -/
def AudioCapture.stop (c : AudioCapture) : AudioCapture :=
  { c with stream := false }

/-- Model of `AudioCapture::is_recording`. -/
def AudioCapture.is_recording (c : AudioCapture) : Bool := c.stream

/-- An environment in which every step of `start` succeeds, reporting
sample rate `rate`. -/
def goodEnv (rate channels : Nat) (fmt : SampleFormat) : CaptureEnv :=
  ⟨true, .ok ⟨rate, channels, fmt⟩, .ok (), .ok ()⟩

/-!
Resampler (`audio/capture.rs` 118–135)

`resample` computes in `f64` (and the output samples pass through an
`f32` cast).  Two models are given.  `resample` is the algorithm in
exact rational arithmetic — faithful to the source line by line, with
real arithmetic in place of IEEE doubles, `data[i]` accesses rendered
as `getD` (their indices are proven in range below, matching the
panic-free executions of the source), and the nonnegative
`as usize` truncation rendered as the floor.  `resampleF64Len` is the
*exact* IEEE double-precision computation of the output length (the
first three arithmetic operations of the source), used to exhibit where
the two disagree.
-/

/-- Model of `resample` in exact (rational) arithmetic. -/
def resample (data : List ℚ) (source_rate target_rate : Nat) : List ℚ :=
  if source_rate = target_rate ∨ data = [] then data
  else
    let ratio : ℚ := (source_rate : ℚ) / (target_rate : ℚ)
    let output_len := ⌊(data.length : ℚ) / ratio⌋₊
    (List.range output_len).map (fun (i : Nat) =>
      let src_idx : ℚ := (i : ℚ) * ratio
      let idx_floor := ⌊src_idx⌋₊
      let idx_ceil := min (idx_floor + 1) (data.length - 1)
      let frac := src_idx - (idx_floor : ℚ)
      data.getD idx_floor 0 * (1 - frac) + data.getD idx_ceil 0 * frac)

/-- Fuel-indexed base-2 logarithm: `log2f fuel n = ⌊log₂ n⌋` whenever
`n ≤ 2 ^ fuel` (fuel is always instantiated with `n` itself). -/
def log2f : Nat → Nat → Nat
  | 0, _ => 0
  | f + 1, n => if n ≤ 1 then 0 else log2f f (n / 2) + 1

/-- Test of `n / d < 2 ^ g`, for a (possibly negative) integer exponent `g`,
in pure natural arithmetic. -/
def ltPow2 (n d : Nat) (g : ℤ) : Bool :=
  n * 2 ^ (-g).toNat < d * 2 ^ g.toNat

/-- The correctly rounded (to nearest, ties to even) 53-bit significand
of `(n / d) * 2 ^ (52 - e)`. -/
def roundMantissa (n d : Nat) (e : ℤ) : Nat :=
  let k := 52 - e
  let bigN := n * 2 ^ k.toNat
  let bigD := d * 2 ^ (-k).toNat
  let m := bigN / bigD
  let r := bigN % bigD
  if bigD < 2 * r then m + 1
  else if 2 * r < bigD then m
  else if m % 2 = 0 then m else m + 1

/-- Round a positive fraction `n / d` to the nearest IEEE-754 double
(binary64: 53-bit significand, round to nearest, ties to even),
returned as an exact numerator/denominator pair.  Overflow and
subnormals are out of range for every value arising in this file. -/
def roundPosF64 (n d : Nat) : Nat × Nat :=
  if n = 0 ∨ d = 0 then (0, 1)
  else
    let guess : ℤ := (log2f n n : ℤ) - (log2f d d : ℤ)
    let e := if ltPow2 n d guess then guess - 1
      else if ltPow2 n d (guess + 1) then guess
      else guess + 1
    let m2 := roundMantissa n d e
    if 52 ≤ e then (m2 * 2 ^ (e - 52).toNat, 1)
    else (m2, 2 ^ (52 - e).toNat)

/-- IEEE double division of two nonnegative doubles given as exact
fraction pairs. -/
def f64DivPos (a b : Nat × Nat) : Nat × Nat :=
  roundPosF64 (a.1 * b.2) (a.2 * b.1)

/-- The output length computed by `resample` in the source's actual
`f64` arithmetic: `ratio = source_rate as f64 / target_rate as f64`,
then `(data.len() as f64 / ratio) as usize` (the operand is
nonnegative, so the `as usize` truncation is the floor, here the
natural-number division of the exact fraction).  The `as f64`
conversions of the integer inputs are exact at every magnitude that
can occur. -/
def resampleF64Len (n source_rate target_rate : Nat) : Nat :=
  if source_rate = target_rate ∨ n = 0 then n
  else
    let q := f64DivPos (n, 1) (f64DivPos (source_rate, 1) (target_rate, 1))
    q.1 / q.2

/-!
AI formatter (`formatting.rs`)

The HTTP call is the only effect; it is made explicit as an
environment record holding the outcome of `send()` and, on a response,
the status, the error-path body text and the result of `.json()`.
JSON values follow `serde_json::Value`; indexing a non-object with a
key or a non-array with a position yields `Null`, as in `serde_json`.
-/

/-- Model of `AiProvider` (`formatting.rs`). -/
inductive AiProvider
  | None
  | OpenAi
  | Claude
deriving DecidableEq, Repr

/-- Model of `AiSettings` (`formatting.rs`). -/
structure AiSettings where
  provider : AiProvider
  api_key : RStr
  openai_model : RStr
  claude_model : RStr
  prompt : RStr
deriving DecidableEq, Repr

/-- A `serde_json::Value`. -/
inductive Json
  | null
  | bool (b : Bool)
  | num (n : ℤ)
  | str (s : RStr)
  | arr (xs : List Json)
  | obj (fields : List (RStr × Json))

/-- Indexing `value[key]` of `serde_json`: field of an object, else `Null`. -/
def Json.getKey : Json → RStr → Json
  | .obj fields, k =>
    match fields.find? (fun f => f.1 == k) with
    | some f => f.2
    | none => .null
  | _, _ => .null

/-- Indexing `value[i]` of `serde_json`: element of an array, else `Null`. -/
def Json.getIdx : Json → Nat → Json
  | .arr xs, i => xs.getD i .null
  | _, _ => .null

/-- Model of `value.as_str()`. -/
def Json.asStr : Json → Option RStr
  | .str s => some s
  | _ => none

/-- The observable outcome of an HTTP response: status code, the body
text read on the error path, and the result of `.json()`. -/
structure HttpResp where
  status : Nat
  textBody : RStr
  jsonResult : Except String Json

/-- The outcome of one `reqwest` POST: transport failure or a
response. -/
structure HttpWorld where
  sendResult : Except String HttpResp

/-- Model of `reqwest::StatusCode::is_success`: `200 ≤ code < 300`. -/
def statusIsSuccess (code : Nat) : Bool := 200 ≤ code && code < 300

/-- Model of `format_with_openai` (`formatting.rs` 93–132): fail on an empty
api key, a transport error, a non-2xx status, an unparsable body, or a
missing `choices[0].message.content` string; otherwise the trimmed
content. -/
def format_with_openai (_text : RStr) (settings : AiSettings)
    (w : HttpWorld) : Except String RStr :=
  if settings.api_key.isEmpty then .error "OpenAI API key not set"
  else match w.sendResult with
    | .error e => .error ("OpenAI request failed: " ++ e)
    | .ok resp =>
      if !statusIsSuccess resp.status then
        .error "OpenAI error status"
      else match resp.jsonResult with
        | .error e => .error ("Failed to parse OpenAI response: " ++ e)
        | .ok json =>
          match ((((json.getKey (rs "choices")).getIdx 0).getKey
              (rs "message")).getKey (rs "content")).asStr with
          | some s => .ok (rustTrim s)
          | none => .error "No content in OpenAI response"

/-- Model of `format_with_claude` (`formatting.rs` 135–177): same shape with
the Anthropic endpoint and the `content[0].text` result path. -/
def format_with_claude (_text : RStr) (settings : AiSettings)
    (w : HttpWorld) : Except String RStr :=
  if settings.api_key.isEmpty then .error "Claude API key not set"
  else match w.sendResult with
    | .error e => .error ("Claude request failed: " ++ e)
    | .ok resp =>
      if !statusIsSuccess resp.status then
        .error "Claude error status"
      else match resp.jsonResult with
        | .error e => .error ("Failed to parse Claude response: " ++ e)
        | .ok json =>
          match (((json.getKey (rs "content")).getIdx 0).getKey
              (rs "text")).asStr with
          | some s => .ok (rustTrim s)
          | none => .error "No content in Claude response"

/-- Model of `format_text` (`formatting.rs` 67–90): return the input unchanged
for provider `None` or whitespace-only text; otherwise run the
provider branch and fall back to the input on any error. -/
def format_text (text : RStr) (settings : AiSettings) (w : HttpWorld) :
    RStr :=
  if settings.provider = AiProvider.None ∨ (rustTrim text).isEmpty then
    text
  else
    let result := match settings.provider with
      | .OpenAi => format_with_openai text settings w
      | .Claude => format_with_claude text settings w
      | .None => .ok text
    match result with
    | .ok formatted => formatted
    | .error _ => text

/-!
Session controller (`lib.rs`)

The managed application state (`AppState`, the shared buffer, and the
capture's running flag) is collected in one record; the status-bus
emissions are returned as an event list.  The collaborators the flows
call — capture start, the transcription engine, the HTTP world, text
injection — enter as explicit outcome parameters.  The sound player
and the logger have no observable effect on the modelled state and are
elided; the preview task runs concurrently and emits only
`streaming-preview` events, which are not part of these flows.
A `none` result models a panic inside the flow.
-/

/-- Model of `AppStatus` (`state.rs`). -/
inductive AppStatus
  | Idle
  | Recording
  | Transcribing
  | Formatting
  | Injecting
  | Error (msg : String)
deriving DecidableEq, Repr

/-- A status-bus event (`app.emit` in `lib.rs`). -/
inductive Event
  | statusChanged (label : String)
  | transcriptionComplete (text : RStr)
deriving DecidableEq, Repr

/-- The controller-visible application state: the `AppState` status
and last transcription, the shared sample buffer, and whether the
capture stream is live. -/
structure AppModel (α : Type) where
  status : AppStatus
  lastTranscription : RStr
  buffer : List α
  captureOn : Bool
deriving DecidableEq, Repr

/-- Model of `start_recording_flow` (`lib.rs` 175–209).  `captureStart` is the
outcome of `AudioCapture::start`.  Ignored (state and events
unchanged) only when the status is already `Recording`; from every
other status the buffer is cleared, the status set to `Recording`,
`status-changed(Recording)` emitted and capture started — on capture
failure the status becomes `Error` and `status-changed(Error)` is also
emitted, the stream staying as it was. -/
def start_recording_flow (m : AppModel α) (captureStart : Except String Nat) :
    AppModel α × List Event :=
  if m.status = AppStatus.Recording then (m, [])
  else
    let m1 := { m with buffer := [], status := AppStatus.Recording }
    match captureStart with
    | .ok _ =>
      ({ m1 with captureOn := true }, [.statusChanged "Recording"])
    | .error e =>
      ({ m1 with status := AppStatus.Error e },
       [.statusChanged "Recording", .statusChanged "Error"])

/-- The collaborator outcomes consumed by one run of
`stop_and_transcribe_flow`: the engine, the user's AI settings, the
HTTP world of the formatting call, and the injection collaborator. -/
structure StopOracles (α : Type) where
  transcribe : List α → Except String RStr
  aiSettings : AiSettings
  httpWorld : HttpWorld
  inject : RStr → Except String Unit

/-- The text injected and recorded by `stop_and_transcribe_flow` once
a nonempty sanitized transcription `cleaned` exists: the AI-formatted
text when a provider is configured, `cleaned` itself otherwise. -/
def finalText (cleaned : RStr) (o : StopOracles α) : RStr :=
  if o.aiSettings.provider ≠ AiProvider.None then
    format_text cleaned o.aiSettings o.httpWorld
  else cleaned

/-- Model of `stop_and_transcribe_flow` (`lib.rs` 331–434).  Returns the final
state and emitted events; `none` models a panic (possible only inside
`remove_fillers`). -/
def stop_and_transcribe_flow (m : AppModel α) (o : StopOracles α) :
    Option (AppModel α × List Event) :=
  if m.status ≠ AppStatus.Recording then some (m, [])
  else
    let m := { m with captureOn := false }
    let m := { m with status := AppStatus.Transcribing }
    let evs := [Event.statusChanged "Transcribing"]
    let samples := m.buffer
    let m := { m with buffer := [] }
    if samples.isEmpty then
      some ({ m with status := AppStatus.Idle },
        evs ++ [.statusChanged "Idle"])
    else match o.transcribe samples with
      | .error _ =>
        some ({ m with status := AppStatus.Idle },
          evs ++ [.statusChanged "Idle"])
      | .ok text =>
        if text.isEmpty then
          some ({ m with status := AppStatus.Idle },
            evs ++ [.statusChanged "Idle"])
        else match remove_fillers text with
          | none => none
          | some cleaned =>
            if cleaned.isEmpty then
              some ({ m with status := AppStatus.Idle },
                evs ++ [.statusChanged "Idle"])
            else
              let final := finalText cleaned o
              let evs :=
                if o.aiSettings.provider ≠ AiProvider.None then
                  evs ++ [Event.statusChanged "Formatting"]
                else evs
              let m := { m with status := AppStatus.Injecting }
              let evs := evs ++ [Event.statusChanged "Injecting"]
              let _ := o.inject final
              let m := { m with status := AppStatus.Idle, lastTranscription := final }
              some (m, evs ++ [.statusChanged "Idle", .transcriptionComplete final])

/-!
Concrete inputs used by witnesses and counterexamples
-/

/-- OpenAI settings with an empty api key. -/
def exSettingsOpenAi : AiSettings :=
  ⟨AiProvider.OpenAi, rs "", rs "gpt-4o-mini",
   rs "claude-sonnet-4-20250514", rs "format this"⟩

/-- Settings with no AI provider configured. -/
def exSettingsNone : AiSettings :=
  ⟨AiProvider.None, rs "", rs "gpt-4o-mini",
   rs "claude-sonnet-4-20250514", rs "format this"⟩

/-- An HTTP world in which the POST fails in transport. -/
def exWorldDown : HttpWorld := ⟨.error "connection refused"⟩

/-- A state sitting in `Transcribing` with one buffered sample. -/
def exModelTranscribing : AppModel Int := ⟨AppStatus.Transcribing, rs "", [0], false⟩

/-- An idle state with a stale sample in the buffer. -/
def exModelIdle : AppModel Int := ⟨AppStatus.Idle, rs "", [7], false⟩

/-- A recording state with one buffered sample. -/
def exModelRecording : AppModel Int := ⟨AppStatus.Recording, rs "", [1], true⟩

/-- Oracles whose engine always fails (model not loaded). -/
def exOraclesFail : StopOracles Int :=
  ⟨fun _ => .error "model not loaded", exSettingsNone, exWorldDown,
   fun _ => .ok ()⟩

/-- Oracles that transcribe to `"hi"` and whose injection fails. -/
def exOraclesHi : StopOracles Int :=
  ⟨fun _ => .ok (rs "hi"), exSettingsNone, exWorldDown,
   fun _ => .error "Failed to inject text"⟩

/-- A capture whose stream is live. -/
def exCaptureRunning : AudioCapture := ⟨true, 48000⟩

/-!
Sanity evaluations of the embedded definitions
-/

example : remove_fillers (rs "you um know") = some (rs "you know") := by decide
example : remove_fillers (rs "you know") = some (rs "") := by decide
example : remove_fillers (rs "sayou knowledge") = some (rs "saledge") := by decide
example : remove_fillers (rs ",um") = some (rs "") := by decide
example : remove_fillers (rs "um, so this is, you know, a test")
    = some (rs "this is, a test") := by decide
example : f64DivPos (17, 1) (16000, 1)
    = (4899916394579100, 4611686018427387904) := by decide

/-!
Helper lemmas
-/

/-- Folding `push_samples` over a chunk list appends the chunks. -/
theorem foldl_push_samples (chunks : List (List α)) (b : AudioBuffer α) :
    (chunks.foldl AudioBuffer.push_samples b).samples
      = b.samples ++ chunks.flatten := by
  induction chunks generalizing b with
  | nil => simp
  | cons c cs ih => simp [ih, AudioBuffer.push_samples, List.append_assoc]

/-!
Claim C8 — buffer drain is the concatenation of appends
-/

/-- C8: starting from any empty buffer (fresh, cleared or drained),
appending any finite sequence of slices and then draining returns
exactly their concatenation in order and leaves the buffer with
`len() = 0`. -/
theorem c8_buffer_drain_concat (b0 : AudioBuffer α)
    (chunks : List (List α)) (h : b0.samples = []) :
    (chunks.foldl AudioBuffer.push_samples b0).take_samples.1
        = chunks.flatten
      ∧ (chunks.foldl AudioBuffer.push_samples b0).take_samples.2.len = 0 := by
  constructor
  · simp [AudioBuffer.take_samples, foldl_push_samples, h]
  · simp [AudioBuffer.take_samples, AudioBuffer.len]

/-- C8 witness: two appends on a fresh buffer drain to their
concatenation, leaving the buffer empty. -/
theorem c8_buffer_drain_concat_witness :
    (AudioBuffer.new Int).samples = []
      ∧ (([[1], [2, 3]] : List (List Int)).foldl AudioBuffer.push_samples
            (AudioBuffer.new Int)).take_samples.1 = [1, 2, 3]
      ∧ (([[1], [2, 3]] : List (List Int)).foldl AudioBuffer.push_samples
            (AudioBuffer.new Int)).take_samples.2.len = 0 := by
  refine ⟨rfl, ?_⟩
  have h := c8_buffer_drain_concat (AudioBuffer.new Int) [[1], [2, 3]] rfl
  exact ⟨by rw [h.1]; decide, h.2⟩

/-!
Claim C4 — AudioCapture::start while already running
-/

/-- C4 counterexample: with a live stream (`is_recording() = true`) and
a healthy device environment, `start` still returns `Ok` — it does not
fail, contradicting the claim that starting while running fails. -/
theorem c4_start_while_running_counterexample :
    exCaptureRunning.is_recording = true
      ∧ (exCaptureRunning.start (goodEnv 44100 2 SampleFormat.F32)).2
          = .ok 44100 := ⟨rfl, rfl⟩

/-- C4 amended: `start` never consults the running state.  In a
healthy environment it succeeds from *any* state — also while a stream
is live, in which case the new stream handle replaces (drops) the old
one; it fails only for device, configuration, format, build or play
errors. -/
theorem c4_start_ignores_running_state (c : AudioCapture)
    (env : CaptureEnv) (rate ch : Nat) (fmt : SampleFormat)
    (hfmt : fmt = SampleFormat.F32 ∨ fmt = SampleFormat.I16)
    (henv : env = goodEnv rate ch fmt) :
    c.start env = ({ c with stream := true, deviceSampleRate := rate },
      .ok rate) := by
  rcases hfmt with h | h <;>
    simp [henv, h, AudioCapture.start, goodEnv]

/-- C4 witness: the amended statement at a live capture and a healthy
44.1 kHz stereo f32 device. -/
theorem c4_start_ignores_running_state_witness :
    (SampleFormat.F32 = SampleFormat.F32 ∨ SampleFormat.F32 = SampleFormat.I16)
      ∧ exCaptureRunning.start (goodEnv 44100 2 SampleFormat.F32)
          = ({ exCaptureRunning with stream := true, deviceSampleRate := 44100 },
             .ok 44100) :=
  ⟨Or.inl rfl,
   c4_start_ignores_running_state exCaptureRunning _ 44100 2 SampleFormat.F32
     (Or.inl rfl) rfl⟩

/-!
Claim C5 — format_text falls back to the input on any failure
-/

/-- C5: `format_text` never propagates an error: whenever the chosen
provider branch fails (empty api key, transport failure, non-2xx
status, unparsable body or missing content field — all the `error`
outcomes of the branch), the returned string is the original input. -/
theorem c5_format_text_fallback (text : RStr) (s : AiSettings)
    (w : HttpWorld) (e : String)
    (h : (s.provider = AiProvider.OpenAi
            ∧ format_with_openai text s w = .error e)
       ∨ (s.provider = AiProvider.Claude
            ∧ format_with_claude text s w = .error e)) :
    format_text text s w = text := by
  rcases h with ⟨hp, he⟩ | ⟨hp, he⟩ <;>
  · rw [format_text]
    by_cases hc : s.provider = AiProvider.None ∨ (rustTrim text).isEmpty
    · rw [if_pos hc]
    · rw [if_neg hc]
      simp only [hp, he]

/-- C5 witness: provider `openai` with an empty api key fails the
branch, and `format_text` returns the input text unchanged. -/
theorem c5_format_text_fallback_witness :
    (exSettingsOpenAi.provider = AiProvider.OpenAi
        ∧ format_with_openai (rs "hi there") exSettingsOpenAi exWorldDown
            = .error "OpenAI API key not set")
      ∧ format_text (rs "hi there") exSettingsOpenAi exWorldDown
          = rs "hi there" :=
  ⟨⟨rfl, rfl⟩,
   c5_format_text_fallback (rs "hi there") exSettingsOpenAi exWorldDown
     "OpenAI API key not set" (Or.inl ⟨rfl, rfl⟩)⟩

/-!
Claim C1 — StartSignal during Transcribing/Formatting/Injecting
-/

/-- C1 counterexample: delivering a StartSignal while `Transcribing`
is *not* ignored — the status tag changes to `Recording`, the sample
buffer is cleared (it held one sample), the capture stream is started,
and a `status-changed` event is emitted. -/
theorem c1_start_during_transcribing_counterexample :
    exModelTranscribing.buffer ≠ []
      ∧ (start_recording_flow exModelTranscribing (.ok 48000)).1.status
          = AppStatus.Recording
      ∧ (start_recording_flow exModelTranscribing (.ok 48000)).1.buffer = []
      ∧ (start_recording_flow exModelTranscribing (.ok 48000)).1.captureOn
          = true
      ∧ (start_recording_flow exModelTranscribing (.ok 48000)).2
          = [Event.statusChanged "Recording"] := by
  refine ⟨by decide, ?_, ?_, ?_, ?_⟩ <;> rfl

/-- C1 amended: a StartSignal is ignored only while `Recording`.  In
`Transcribing`, `Formatting` or `Injecting` it begins a new session:
the buffer is cleared, the status becomes `Recording` and
`status-changed(Recording)` is emitted; capture is started (on capture
failure the status becomes `Error` and `status-changed(Error)` is also
emitted). -/
theorem c1_start_signal_not_ignored_outside_recording {α : Type}
    (m : AppModel α) (r : Except String Nat)
    (h : m.status = AppStatus.Transcribing
       ∨ m.status = AppStatus.Formatting
       ∨ m.status = AppStatus.Injecting) :
    start_recording_flow m r =
      match r with
      | .ok _ =>
        ({ m with
            buffer := []
            status := AppStatus.Recording
            captureOn := true }, [Event.statusChanged "Recording"])
      | .error e =>
        ({ m with buffer := [], status := AppStatus.Error e },
         [Event.statusChanged "Recording", Event.statusChanged "Error"]) := by
  have hne : ¬m.status = AppStatus.Recording := by
    rcases h with h | h | h <;> simp [h]
  cases r <;> simp [start_recording_flow, hne]

/-- C1 witness: the amended statement at a concrete `Transcribing`
state and a successful capture start. -/
theorem c1_start_signal_not_ignored_outside_recording_witness :
    (exModelTranscribing.status = AppStatus.Transcribing
       ∨ exModelTranscribing.status = AppStatus.Formatting
       ∨ exModelTranscribing.status = AppStatus.Injecting)
      ∧ start_recording_flow exModelTranscribing (.ok 48000)
          = ({ exModelTranscribing with
                buffer := []
                status := AppStatus.Recording
                captureOn := true },
             [Event.statusChanged "Recording"]) :=
  ⟨Or.inl rfl,
   c1_start_signal_not_ignored_outside_recording exModelTranscribing
     (.ok 48000) (Or.inl rfl)⟩

/-!
Claim C10 — remove_fillers can panic on Unicode input
-/

/-- C10: on the input `"İ you know"` the multi-word pass finds
`"you know"` at byte offset 4 of the *lowercased* copy (`"i̇ you know"`,
12 bytes), and then slices the 11-byte original at byte 12 — out of
range, a panic (`none` in this model).  `remove_fillers` is not total:
byte indices of the lowercased string are not valid in the original
when lowercasing changes byte lengths. -/
theorem c10_remove_fillers_panics_on_dotted_capital_i :
    remove_fillers (rs "İ you know") = none := by decide

/-!
Claim C6 — empty Stop-to-Idle paths
-/

/-- C6: on the Stop path from `Recording`, if the drained buffer is
empty, or the final transcription fails or returns the empty string,
or sanitization yields the empty string, the controller returns to
`Idle` having emitted exactly `status-changed(Transcribing)` then
`status-changed(Idle)` — and no `transcription-complete`.  In
particular a Start from `Idle` followed immediately by Stop yields the
status events `Recording`, `Transcribing`, `Idle` and no
`transcription-complete`. -/
theorem c6_stop_empty_paths_return_to_idle {α : Type} :
    (∀ (m : AppModel α) (o : StopOracles α),
      m.status = AppStatus.Recording →
      (m.buffer = []
        ∨ (∃ e, o.transcribe m.buffer = .error e)
        ∨ o.transcribe m.buffer = .ok []
        ∨ (∃ t, o.transcribe m.buffer = .ok t ∧ remove_fillers t = some [])) →
      ∃ m', stop_and_transcribe_flow m o
          = some (m', [Event.statusChanged "Transcribing",
                       Event.statusChanged "Idle"])
        ∧ m'.status = AppStatus.Idle
        ∧ ∀ tx, Event.transcriptionComplete tx
            ∉ [Event.statusChanged "Transcribing", Event.statusChanged "Idle"])
    ∧ (∀ (m0 : AppModel α) (o : StopOracles α) (rate : Nat),
        m0.status = AppStatus.Idle →
        (start_recording_flow m0 (.ok rate)).2
            = [Event.statusChanged "Recording"]
          ∧ ∃ m', stop_and_transcribe_flow
                (start_recording_flow m0 (.ok rate)).1 o
              = some (m', [Event.statusChanged "Transcribing",
                           Event.statusChanged "Idle"])
            ∧ m'.status = AppStatus.Idle) := by
  have main : ∀ (m : AppModel α) (o : StopOracles α),
      m.status = AppStatus.Recording →
      (m.buffer = []
        ∨ (∃ e, o.transcribe m.buffer = .error e)
        ∨ o.transcribe m.buffer = .ok []
        ∨ (∃ t, o.transcribe m.buffer = .ok t ∧ remove_fillers t = some [])) →
      ∃ m', stop_and_transcribe_flow m o
          = some (m', [Event.statusChanged "Transcribing",
                       Event.statusChanged "Idle"])
        ∧ m'.status = AppStatus.Idle
        ∧ ∀ tx, Event.transcriptionComplete tx
            ∉ [Event.statusChanged "Transcribing", Event.statusChanged "Idle"] := by
    intro m o hrec hcase
    refine ⟨{ m with
              captureOn := false
              buffer := []
              status := AppStatus.Idle }, ?_, rfl, by simp⟩
    rw [stop_and_transcribe_flow]
    rcases hcase with hb | ⟨e, he⟩ | hok | ⟨t, ht, hcl⟩
    · simp [hrec, hb]
    · simp [hrec, he]
    · simp [hrec, hok]
    · simp [hrec, ht, hcl]
  refine ⟨main, ?_⟩
  intro m0 o rate hidle
  have hne : ¬m0.status = AppStatus.Recording := by simp [hidle]
  have hstart : start_recording_flow m0 (.ok rate)
      = ({ m0 with
            buffer := []
            status := AppStatus.Recording
            captureOn := true }, [Event.statusChanged "Recording"]) := by
    simp [start_recording_flow, hne]
  refine ⟨by rw [hstart], ?_⟩
  have h2 := main { m0 with
      buffer := []
      status := AppStatus.Recording
      captureOn := true } o rfl (Or.inl rfl)
  rw [hstart]
  exact ⟨h2.choose, h2.choose_spec.1, h2.choose_spec.2.1⟩

/-- C6 witness: part one applied at a `Recording` state whose engine
fails (no loaded model), and part two at a concrete idle state. -/
theorem c6_stop_empty_paths_return_to_idle_witness :
    exModelRecording.status = AppStatus.Recording
      ∧ (∃ e, exOraclesFail.transcribe exModelRecording.buffer = .error e)
      ∧ (∃ m', stop_and_transcribe_flow exModelRecording exOraclesFail
            = some (m', [Event.statusChanged "Transcribing",
                         Event.statusChanged "Idle"])
          ∧ m'.status = AppStatus.Idle
          ∧ ∀ tx, Event.transcriptionComplete tx
              ∉ [Event.statusChanged "Transcribing",
                 Event.statusChanged "Idle"])
      ∧ exModelIdle.status = AppStatus.Idle
      ∧ ((start_recording_flow exModelIdle (.ok 48000)).2
            = [Event.statusChanged "Recording"]
          ∧ ∃ m', stop_and_transcribe_flow
                (start_recording_flow exModelIdle (.ok 48000)).1 exOraclesFail
              = some (m', [Event.statusChanged "Transcribing",
                           Event.statusChanged "Idle"])
            ∧ m'.status = AppStatus.Idle) :=
  ⟨rfl, ⟨"model not loaded", rfl⟩,
   (c6_stop_empty_paths_return_to_idle (α := Int)).1 exModelRecording
     exOraclesFail rfl (Or.inr (Or.inl ⟨"model not loaded", rfl⟩)),
   rfl,
   (c6_stop_empty_paths_return_to_idle (α := Int)).2 exModelIdle
     exOraclesFail 48000 rfl⟩

/-!
Claim C7 — injection failure still completes the session
-/

/-- C7: when the injection collaborator fails, the session still
completes: the final text is recorded as `last_transcription`, the
`transcription-complete` event carrying it is emitted, and the status
returns to `Idle`. -/
theorem c7_injection_failure_still_completes {α : Type}
    (m : AppModel α) (o : StopOracles α) (t cleaned : RStr) (e : String)
    (hrec : m.status = AppStatus.Recording)
    (hbuf : m.buffer ≠ [])
    (htr : o.transcribe m.buffer = .ok t)
    (ht : t ≠ [])
    (hcl : remove_fillers t = some cleaned)
    (hcl2 : cleaned ≠ [])
    (_hinj : o.inject (finalText cleaned o) = .error e) :
    ∃ evs, stop_and_transcribe_flow m o
        = some ({ m with
            captureOn := false
            buffer := []
            status := AppStatus.Idle
            lastTranscription := finalText cleaned o }, evs)
      ∧ Event.transcriptionComplete (finalText cleaned o) ∈ evs := by
  refine ⟨[Event.statusChanged "Transcribing"]
      ++ (if o.aiSettings.provider ≠ AiProvider.None then
            [Event.statusChanged "Formatting"] else [])
      ++ [Event.statusChanged "Injecting", Event.statusChanged "Idle",
          Event.transcriptionComplete (finalText cleaned o)], ?_, by simp⟩
  rw [stop_and_transcribe_flow]
  simp [hrec, hbuf, htr, ht, hcl, hcl2]
  by_cases hp : o.aiSettings.provider = AiProvider.None <;> simp [hp]

/-- C7 witness: a session whose transcription is `"hi"`, no AI
provider, and an injection collaborator that fails. -/
theorem c7_injection_failure_still_completes_witness :
    (exModelRecording.status = AppStatus.Recording
      ∧ exModelRecording.buffer ≠ []
      ∧ exOraclesHi.transcribe exModelRecording.buffer = .ok (rs "hi")
      ∧ remove_fillers (rs "hi") = some (rs "hi")
      ∧ exOraclesHi.inject (finalText (rs "hi") exOraclesHi)
          = .error "Failed to inject text")
      ∧ ∃ evs, stop_and_transcribe_flow exModelRecording exOraclesHi
          = some ({ exModelRecording with
              captureOn := false
              buffer := []
              status := AppStatus.Idle
              lastTranscription := finalText (rs "hi") exOraclesHi }, evs)
        ∧ Event.transcriptionComplete (finalText (rs "hi") exOraclesHi) ∈ evs :=
  ⟨⟨rfl, by decide, rfl, by decide, rfl⟩,
   c7_injection_failure_still_completes exModelRecording exOraclesHi
     (rs "hi") (rs "hi") "Failed to inject text" rfl (by decide) rfl
     (by decide) (by decide) (by decide) rfl⟩

/-!
Claim C9 — resampling a constant signal
-/

/-- Reading `getD` on a replicate list, in range. -/
theorem getD_replicate_of_lt (n i : ℕ) (a d : ℚ) (h : i < n) :
    (List.replicate n a).getD i d = a := by
  rw [List.getD_eq_getElem?_getD]
  simp [List.getElem?_replicate, h]

/-- C9 counterexample: the claim asserts the output length is
`⌊N·16000/R⌋` for *every* N and R, but the source computes it in `f64`:
at `N = 17, R = 17` the double-precision value `17/(17/16000.0)` is
`15999.999999999998`, so the code produces 15999 samples while
`⌊17·16000/17⌋ = 16000`. -/
theorem c9_resample_length_counterexample :
    resampleF64Len 17 17 16000 = 15999
      ∧ 17 * 16000 / 17 = 16000
      ∧ (15999 : ℕ) ≠ 16000 := by decide

/-- C9 amended: in exact (real) arithmetic — the source's `f64`
arithmetic idealized, which matches it at all realistic rates —
resampling the constant-`c` signal of length `N ≥ 1` from rate `R ≥ 1`
to 16 kHz yields a signal all of whose samples equal `c`, of length
`⌊N·16000/R⌋`; under `f64` the length can fall short of that floor
(see the counterexample). -/
theorem c9_resample_constant (n R : ℕ) (c : ℚ) (hn : 1 ≤ n) (hR : 1 ≤ R) :
    (∀ x ∈ resample (List.replicate n c) R 16000, x = c)
      ∧ (resample (List.replicate n c) R 16000).length = n * 16000 / R := by
  by_cases hcase : R = 16000
  · subst hcase
    rw [resample, if_pos (Or.inl rfl)]
    refine ⟨fun x hx => List.eq_of_mem_replicate hx, ?_⟩
    rw [List.length_replicate]
    omega
  · have hR0 : (0 : ℚ) < (R : ℚ) := by exact_mod_cast hR
    have hdata : List.replicate n c ≠ [] := by
      simp only [ne_eq, List.replicate_eq_nil_iff]
      omega
    rw [resample, if_neg (by push_neg; exact ⟨hcase, hdata⟩)]
    have hratio : (0 : ℚ) < (R : ℚ) / ((16000 : ℕ) : ℚ) := by positivity
    have hlen : ⌊((List.replicate n c).length : ℚ) / ((R : ℚ) / ((16000 : ℕ) : ℚ))⌋₊
        = n * 16000 / R := by
      rw [List.length_replicate]
      have hq : (n : ℚ) / ((R : ℚ) / ((16000 : ℕ) : ℚ))
          = ((n * 16000 : ℕ) : ℚ) / ((R : ℕ) : ℚ) := by
        push_cast
        field_simp
      rw [hq, Nat.floor_div_nat, Nat.floor_natCast]
    constructor
    · intro x hx
      simp only [List.mem_map, List.mem_range] at hx
      obtain ⟨i, hi, rfl⟩ := hx
      have hfloor_lt : ⌊(i : ℚ) * ((R : ℚ) / ((16000 : ℕ) : ℚ))⌋₊ < n := by
        have h1 : (i : ℚ) + 1 ≤ ((List.replicate n c).length : ℚ)
            / ((R : ℚ) / ((16000 : ℕ) : ℚ)) := by
          have : (i : ℚ) + 1 ≤ (⌊((List.replicate n c).length : ℚ)
              / ((R : ℚ) / ((16000 : ℕ) : ℚ))⌋₊ : ℚ) := by
            exact_mod_cast Nat.succ_le_of_lt hi
          exact this.trans (Nat.floor_le (by positivity))
        have h2 : ((i : ℚ) + 1) * ((R : ℚ) / ((16000 : ℕ) : ℚ))
            ≤ ((List.replicate n c).length : ℚ) := by
          rw [← le_div_iff₀ hratio]
          exact h1
        have h3 : (i : ℚ) * ((R : ℚ) / ((16000 : ℕ) : ℚ))
            < ((List.replicate n c).length : ℚ) := by
          nlinarith
        rw [Nat.floor_lt (by positivity)]
        rw [List.length_replicate] at h3
        exact_mod_cast h3
      have hceil_lt : min (⌊(i : ℚ) * ((R : ℚ) / ((16000 : ℕ) : ℚ))⌋₊ + 1)
          ((List.replicate n c).length - 1) < n := by
        rw [List.length_replicate]
        omega
      rw [getD_replicate_of_lt _ _ _ _ hfloor_lt,
        getD_replicate_of_lt _ _ _ _ hceil_lt]
      ring
    · rw [List.length_map, List.length_range, hlen]

/-- C9 witness: the amended statement at `N = 3`, `R = 48000`,
`c = 5`, where the output is one sample long. -/
theorem c9_resample_constant_witness :
    (1 : ℕ) ≤ 3 ∧ (1 : ℕ) ≤ 48000
      ∧ ((∀ x ∈ resample (List.replicate 3 (5 : ℚ)) 48000 16000, x = 5)
        ∧ (resample (List.replicate 3 (5 : ℚ)) 48000 16000).length
            = 3 * 16000 / 48000) :=
  ⟨by decide, by decide, c9_resample_constant 3 48000 5 (by decide) (by decide)⟩

/-!
Sanitizer lemmas (for claims C2 and C3)
-/

/-- Tokens produced by the whitespace splitter are nonempty and free
of whitespace characters. -/
theorem splitWsAux_tokens (s : RStr) : ∀ (acc : RStr),
    (∀ c ∈ acc, rustIsWs c = false) →
    ∀ t ∈ splitWsAux s acc, t ≠ [] ∧ ∀ c ∈ t, rustIsWs c = false := by
  induction s with
  | nil =>
    intro acc hacc t ht
    rw [splitWsAux] at ht
    by_cases h : acc = []
    · simp [h] at ht
    · simp [h] at ht
      subst ht
      refine ⟨by simpa using h, ?_⟩
      intro c hc
      exact hacc c (by simpa using hc)
  | cons c rest ih =>
    intro acc hacc t ht
    rw [splitWsAux] at ht
    by_cases hws : rustIsWs c
    · rw [if_pos hws] at ht
      by_cases hemp : acc = []
      · rw [if_pos hemp] at ht
        exact ih [] (by simp) t ht
      · rw [if_neg hemp] at ht
        rcases List.mem_cons.mp ht with rfl | ht
        · refine ⟨by simpa using hemp, ?_⟩
          intro a ha
          exact hacc a (by simpa using ha)
        · exact ih [] (by simp) t ht
    · rw [if_neg hws] at ht
      refine ih (c :: acc) ?_ t ht
      intro a ha
      rcases List.mem_cons.mp ha with rfl | ha
      · simpa using hws
      · exact hacc a ha

/-- Feeding a whitespace-free prefix into the splitter accumulates it. -/
theorem splitWsAux_append_nonws (w : RStr) :
    ∀ (s acc : RStr), (∀ c ∈ w, rustIsWs c = false) →
    splitWsAux (w ++ s) acc = splitWsAux s (w.reverse ++ acc) := by
  induction w with
  | nil => intro s acc _; simp
  | cons c w' ih =>
    intro s acc hw
    have hc : rustIsWs c = false := hw c (by simp)
    rw [List.cons_append, splitWsAux, if_neg (by simp [hc])]
    rw [ih s (c :: acc) (fun a ha => hw a (by simp [ha]))]
    simp

theorem joinSpace_nil : joinSpace [] = [] := rfl

theorem joinSpace_single (w : RStr) : joinSpace [w] = w := by
  simp [joinSpace]

theorem joinSpace_cons (w v : RStr) (ws : List RStr) :
    joinSpace (w :: v :: ws) = w ++ ' ' :: joinSpace (v :: ws) := by
  simp [joinSpace, List.intersperse_cons_cons]

/-- Splitting the space-joined token list recovers the tokens. -/
theorem splitWhitespace_joinSpace (ws : List RStr)
    (h : ∀ t ∈ ws, t ≠ [] ∧ ∀ c ∈ t, rustIsWs c = false) :
    splitWhitespace (joinSpace ws) = ws := by
  rw [splitWhitespace]
  induction ws with
  | nil => rfl
  | cons w ws ih =>
    have hw := h w (by simp)
    cases ws with
    | nil =>
      rw [joinSpace_single, ← List.append_nil w,
        splitWsAux_append_nonws w [] [] hw.2]
      rw [splitWsAux, if_neg (by simp [hw.1])]
      simp
    | cons v vs =>
      rw [joinSpace_cons, splitWsAux_append_nonws w _ [] hw.2]
      rw [List.append_nil, splitWsAux, if_pos (by decide),
        if_neg (by simp [hw.1])]
      rw [List.reverse_reverse]
      exact congrArg _ (ih (fun t ht => h t (by simp [ht])))

/-- The space-join of nonempty whitespace-free tokens starts with a
non-whitespace character, so a front `dropWhile` is the identity. -/
theorem dropWhile_joinSpace (ws : List RStr)
    (h : ∀ t ∈ ws, t ≠ [] ∧ ∀ c ∈ t, rustIsWs c = false) :
    (joinSpace ws).dropWhile rustIsWs = joinSpace ws := by
  cases ws with
  | nil => rfl
  | cons w ws =>
    have hw := h w (by simp)
    obtain ⟨c, w', rfl⟩ : ∃ c w', w = c :: w' := by
      cases w with
      | nil => exact absurd rfl hw.1
      | cons c w' => exact ⟨c, w', rfl⟩
    have hc : rustIsWs c = false := hw.2 c (by simp)
    cases ws with
    | nil => rw [joinSpace_single, List.dropWhile_cons_of_neg (by simp [hc])]
    | cons v vs =>
      rw [joinSpace_cons, List.cons_append,
        List.dropWhile_cons_of_neg (by simp [hc])]

theorem joinSpace_append_single (xs : List RStr) (y : RStr) (hxs : xs ≠ []) :
    joinSpace (xs ++ [y]) = joinSpace xs ++ ' ' :: y := by
  induction xs with
  | nil => exact absurd rfl hxs
  | cons x xs ih =>
    cases xs with
    | nil =>
      simp only [List.cons_append, List.nil_append]
      rw [joinSpace_cons, joinSpace_single, joinSpace_single]
    | cons v vs =>
      have h2 := ih (by simp)
      simp only [List.cons_append] at h2 ⊢
      rw [joinSpace_cons x v (vs ++ [y]), joinSpace_cons x v vs, h2]
      simp

/-- Reversing a space-join reverses the token list and each token. -/
theorem joinSpace_reverse (ws : List RStr) :
    (joinSpace ws).reverse = joinSpace ((ws.map List.reverse).reverse) := by
  induction ws with
  | nil => rfl
  | cons w ws ih =>
    cases ws with
    | nil => simp [joinSpace_single]
    | cons v vs =>
      rw [joinSpace_cons, List.map_cons, List.reverse_cons,
        joinSpace_append_single _ _ (by simp), ← ih]
      simp

/-- Trimming the space-join of nonempty whitespace-free tokens is the
identity. -/
theorem rustTrim_joinSpace (ws : List RStr)
    (h : ∀ t ∈ ws, t ≠ [] ∧ ∀ c ∈ t, rustIsWs c = false) :
    rustTrim (joinSpace ws) = joinSpace ws := by
  have h2 : ∀ t ∈ (ws.map List.reverse).reverse,
      t ≠ [] ∧ ∀ c ∈ t, rustIsWs c = false := by
    intro t ht
    rw [List.mem_reverse, List.mem_map] at ht
    obtain ⟨u, hu, rfl⟩ := ht
    exact ⟨by simpa using (h u hu).1, fun c hc => (h u hu).2 c (by simpa using hc)⟩
  rw [rustTrim, trimMatches, dropWhile_joinSpace ws h, joinSpace_reverse,
    dropWhile_joinSpace _ h2, ← joinSpace_reverse, List.reverse_reverse]

/-- The first pass leaves a string containing no multi-word filler
unchanged. -/
theorem multiPass_id (fs : List RStr) (y : RStr)
    (h : ∀ f ∈ fs, f.contains ' ' = true →
      byteFind (toLowerStr y) (toLowerStr f) = none) :
    multiPass fs y = some y := by
  induction fs with
  | nil => rfl
  | cons f fs ih =>
    rw [multiPass]
    by_cases hf : f.contains ' '
    · rw [if_pos hf]
      have hfind := h f (by simp) hf
      rw [removeMultiFiller]
      simp only [hfind]
      exact ih (fun g hg hsp => h g (by simp [hg]) hsp)
    · rw [if_neg hf]
      exact ih (fun g hg hsp => h g (by simp [hg]) hsp)

/-!
Claim C2 — idempotence of the sanitizer
-/

/-- C2 counterexample: the sanitizer is not idempotent.  On
`"you um know"` the single-word pass removes `"um"`, creating the
multi-word filler `"you know"` that a second application removes:
`sanitize(sanitize(x)) = "" ≠ "you know" = sanitize(x)`. -/
theorem c2_sanitize_not_idempotent_counterexample :
    remove_fillers (rs "you um know") = some (rs "you know")
      ∧ remove_fillers (rs "you know") = some (rs "")
      ∧ some (rs "") ≠ some (rs "you know") :=
  ⟨by decide, by decide, by decide⟩

/-- C2 amended: the sanitizer is idempotent on every input whose
sanitized form contains no multi-word filler (in its lowercase view):
if `sanitize(x) = y` and no multi-word filler occurs in `y`, then
`sanitize(y) = y`.  (Removing single-word fillers can splice the
remaining tokens into a new multi-word filler occurrence — the
counterexample — and only then does a second pass differ.) -/
theorem c2_sanitize_idempotent_without_multi_filler (x y : RStr)
    (hxy : remove_fillers x = some y) (hy : noMultiFillerIn y) :
    remove_fillers y = some y := by
  rw [remove_fillers] at hxy
  cases hmp : multiPass (fillers_ru ++ fillers_en) x with
  | none => rw [hmp] at hxy; exact Option.noConfusion hxy
  | some r =>
    rw [hmp] at hxy
    simp only [Option.some.injEq] at hxy
    have htok : ∀ t ∈ (splitWhitespace r).filter keepWord,
        t ≠ [] ∧ ∀ c ∈ t, rustIsWs c = false := by
      intro t htmem
      exact splitWsAux_tokens r [] (by simp) t (List.mem_of_mem_filter htmem)
    have htrim : rustTrim (joinSpace ((splitWhitespace r).filter keepWord))
        = joinSpace ((splitWhitespace r).filter keepWord) :=
      rustTrim_joinSpace _ htok
    have hy_eq : y = joinSpace ((splitWhitespace r).filter keepWord) := by
      rw [← hxy, htrim]
    rw [remove_fillers, multiPass_id _ y hy]
    have hsplit : splitWhitespace y = (splitWhitespace r).filter keepWord := by
      rw [hy_eq]
      exact splitWhitespace_joinSpace _ htok
    have hff : ((splitWhitespace r).filter keepWord).filter keepWord
        = (splitWhitespace r).filter keepWord :=
      List.filter_eq_self.mpr (fun a ha => List.of_mem_filter ha)
    simp only [hsplit, hff, htrim]
    rw [← hy_eq]

/-- C2 witness: `"well hello world"` sanitizes to `"hello world"`,
which contains no multi-word filler, and sanitizing again is the
identity. -/
theorem c2_sanitize_idempotent_without_multi_filler_witness :
    remove_fillers (rs "well hello world") = some (rs "hello world")
      ∧ noMultiFillerIn (rs "hello world")
      ∧ remove_fillers (rs "hello world") = some (rs "hello world") :=
  ⟨by decide, by decide,
   c2_sanitize_idempotent_without_multi_filler (rs "well hello world")
     (rs "hello world") (by decide) (by decide)⟩

/-!
Claim C3 — survival of non-filler tokens
-/

/-- C3 counterexample: two tokens that satisfy the claim's condition
(lowercased, trailing `,.!?` stripped, in neither dictionary) yet do
not survive sanitization.  `",um"` is dropped because the code strips
punctuation from *both* ends (`trim_matches`), reaching the filler
`"um"`; `"knowledge"` is destroyed because the multi-word pass removes
the substring `"you know"` of `"sayou knowledge"` without regard to
token boundaries, leaving `"saledge"`. -/
theorem c3_token_survival_counterexample :
    (stripTrailingPunct (toLowerStr (rs ",um")) = rs ",um"
      ∧ fillers_ru.contains (rs ",um") = false
      ∧ fillers_en.contains (rs ",um") = false
      ∧ rs ",um" ∈ splitWhitespace (rs ",um")
      ∧ remove_fillers (rs ",um") = some (rs "")
      ∧ rs ",um" ∉ splitWhitespace (rs ""))
    ∧ (stripTrailingPunct (toLowerStr (rs "knowledge")) = rs "knowledge"
      ∧ fillers_ru.contains (rs "knowledge") = false
      ∧ fillers_en.contains (rs "knowledge") = false
      ∧ rs "knowledge" ∈ splitWhitespace (rs "sayou knowledge")
      ∧ remove_fillers (rs "sayou knowledge") = some (rs "saledge")
      ∧ rs "knowledge" ∉ splitWhitespace (rs "saledge")) := by
  exact ⟨⟨by decide, by decide, by decide, by decide, by decide, by decide⟩,
    ⟨by decide, by decide, by decide, by decide, by decide, by decide⟩⟩

/-- C3 amended: in an input whose lowercase view contains no
multi-word filler, every whitespace token whose lowercase form,
stripped of `,.!?` at *both* ends, is in neither dictionary appears
among the whitespace tokens of the sanitized output. -/
theorem c3_nonfiller_token_survives (x t : RStr) (hx : noMultiFillerIn x)
    (htmem : t ∈ splitWhitespace x)
    (hru : fillers_ru.contains (trimMatches isPunctChar (toLowerStr t)) = false)
    (hen : fillers_en.contains (trimMatches isPunctChar (toLowerStr t)) = false) :
    ∃ y, remove_fillers x = some y ∧ t ∈ splitWhitespace y := by
  have hkeep : keepWord t = true := by
    simp only [keepWord, hru, hen]
    rfl
  have htok : ∀ u ∈ (splitWhitespace x).filter keepWord,
      u ≠ [] ∧ ∀ c ∈ u, rustIsWs c = false := by
    intro u hu
    exact splitWsAux_tokens x [] (by simp) u (List.mem_of_mem_filter hu)
  refine ⟨rustTrim (joinSpace ((splitWhitespace x).filter keepWord)), ?_, ?_⟩
  · rw [remove_fillers, multiPass_id _ x hx]
  · rw [rustTrim_joinSpace _ htok, splitWhitespace_joinSpace _ htok]
    exact List.mem_filter.mpr ⟨htmem, hkeep⟩

/-- C3 witness: the token `"hello,"` of `"hello, world"` survives
sanitization. -/
theorem c3_nonfiller_token_survives_witness :
    noMultiFillerIn (rs "hello, world")
      ∧ rs "hello," ∈ splitWhitespace (rs "hello, world")
      ∧ fillers_ru.contains (trimMatches isPunctChar (toLowerStr (rs "hello,")))
          = false
      ∧ fillers_en.contains (trimMatches isPunctChar (toLowerStr (rs "hello,")))
          = false
      ∧ ∃ y, remove_fillers (rs "hello, world") = some y
          ∧ rs "hello," ∈ splitWhitespace y :=
  ⟨by decide, by decide, by decide, by decide,
   c3_nonfiller_token_survives (rs "hello, world") (rs "hello,")
     (by decide) (by decide) (by decide) (by decide)⟩
